import Mathlib

/-!
Shallow embedding of the GitLens AI core pipeline: the context builder
(`processZipFile` / `fromRepository` in `src/App.tsx`), the prompt sections and
the response handling of the analysis client (`analyzeProject` in
`src/services/gemini.ts`), and the action-boundary error handling
(`triggerAnalysis` in `src/App.tsx`).

Strings are modelled through their character lists (`String.data`), with purely
structural recursion so every definition evaluates by kernel reduction.
-/

namespace GitLensAI

/-! ## String helpers (modelling the JavaScript string primitives used) -/

/-- Character-list length of a string (JS `s.length`, up to UTF-16 vs codepoint
granularity, which is irrelevant to the claims). -/
def strLen (s : String) : Nat := s.data.length

/-- JS `s.slice(0, n)`. -/
def strTake (s : String) (n : Nat) : String := ⟨s.data.take n⟩

/-- JS `s.slice(n)`. -/
def strDrop (s : String) (n : Nat) : String := ⟨s.data.drop n⟩

/-- JS `s.toLowerCase()` (ASCII-faithful model). -/
def strToLower (s : String) : String := ⟨s.data.map Char.toLower⟩

/-- JS `s.endsWith(suffix)`. -/
def strEndsWith (s suffix : String) : Bool := suffix.data.isSuffixOf s.data

/-- Index of the first occurrence of `pat` in `s`, if any (the search JS
`String.prototype.replace` performs with a string pattern). -/
def firstOccur (s pat : List Char) : Option Nat :=
  match s with
  | [] => if pat = [] then some 0 else none
  | _ :: cs =>
    if pat.isPrefixOf s then some 0
    else (firstOccur cs pat).map (· + 1)

/-- JS `s.replace(pat, repl)` with a string pattern: replaces only the FIRST
occurrence of `pat`, or returns `s` unchanged when `pat` does not occur. -/
def replaceFirst (s pat repl : String) : String :=
  match firstOccur s.data pat.data with
  | none => s
  | some i => strTake s i ++ repl ++ strDrop s (i + strLen pat)

/-- The final `/`-separated segment of a path, lowercased: the JS expression
`fileName.split('/').pop()?.toLowerCase()` from `src/App.tsx`. -/
def takeUntilSlash : List Char → List Char
  | [] => []
  | c :: cs => if c = '/' then [] else c :: takeUntilSlash cs

/-- Lowercased base name of an archive entry path. -/
def baseNameOf (path : String) : String :=
  strToLower ⟨(takeUntilSlash path.data.reverse).reverse⟩

/-! ## Data model (`src/types.ts`) -/

/-- User tier (`src/types.ts`). -/
inductive UserTier where
  | free
  | pro
deriving DecidableEq, Repr

/-- Simulated user record (`src/types.ts`). -/
structure User where
  id : String
  email : String
  name : String
  tier : UserTier
  avatarUrl : Option String
deriving DecidableEq, Repr

/-- Repository owner sub-record (`src/types.ts`). -/
structure Owner where
  login : String
  avatar_url : String
deriving DecidableEq, Repr

/-- GitHub repository snapshot (`src/types.ts`). `description` and `language`
are nullable in the source. -/
structure GithubRepo where
  id : Int
  name : String
  full_name : String
  description : Option String
  html_url : String
  stargazers_count : Nat
  forks_count : Nat
  language : Option String
  owner : Owner
  topics : List String
  updated_at : String
deriving DecidableEq, Repr

/-- Uploaded-project record (`src/types.ts`). The optional `description` is
modelled as a string, with `""` standing for the absent/empty value the JS
falsiness checks react to. `keyFiles` is the insertion-ordered
path-to-content mapping. -/
structure LocalProject where
  name : String
  description : String
  files : List String
  keyFiles : List (String × String)
deriving DecidableEq, Repr

/-- Tagged union of the two context variants (`src/types.ts`). The `local`
variant is spelled `localProj` because `local` is a Lean keyword; its tag
string stays `"local"`. -/
inductive AnalysisContext where
  | github (data : GithubRepo)
  | localProj (data : LocalProject)
deriving DecidableEq, Repr

/-- The tag string of a context. -/
def AnalysisContext.tag : AnalysisContext → String
  | .github _ => "github"
  | .localProj _ => "local"

/-- The wrapped repository of a `github`-tagged context. -/
def AnalysisContext.githubData : AnalysisContext → Option GithubRepo
  | .github d => some d
  | .localProj _ => none

/-! ## Archive model -/

/-- One entry of a decoded zip archive: its path, whether it is a directory
entry, and its decoded text content (what `entry.async('string')` yields). -/
structure ZipEntry where
  path : String
  dir : Bool
  content : String
deriving DecidableEq, Repr

/-- An uploaded file: its name and the entries its decoded archive exposes. -/
structure ZipFile where
  name : String
  entries : List ZipEntry
deriving DecidableEq, Repr

/-- Externally visible effects of `processZipFile`, in order: decoding the
archive (`zip.loadAsync`) and contacting the AI backend (`triggerAnalysis`). -/
inductive Effect where
  | decodeArchive
  | aiCall
deriving DecidableEq, Repr

/-! ## Context builder (`processZipFile` and `fetchRepoData` in `src/App.tsx`) -/

/-- The fixed allow-list `keyFilesToRead` from `src/App.tsx`, verbatim,
including its mixed-case entries. -/
def keyFilesToRead : List String :=
  ["package.json", "README.md", "requirements.txt", "pyproject.toml",
   "Gemfile", "composer.json", "pom.xml", "build.gradle",
   "Dockerfile", "docker-compose.yml", "go.mod"]

/-- One iteration of the collection loop in `processZipFile`: the accumulator
is the collected `(path, content)` list paired with the captured README
content (initially `""`). -/
def collectStep (acc : List (String × String) × String) (e : ZipEntry) :
    List (String × String) × String :=
  let baseName := baseNameOf e.path
  if baseName ≠ "" ∧ baseName ∈ keyFilesToRead ∧ e.dir = false then
    (acc.1 ++ [(e.path, e.content)],
     if baseName = "readme.md" then e.content else acc.2)
  else acc

/-- The whole collection loop over the archive's entry list. -/
def collectKeyFiles (entries : List ZipEntry) : List (String × String) × String :=
  entries.foldl collectStep ([], "")

/-- Fallback description `"Projeto local carregado via ZIP"` from `src/App.tsx`. -/
def fallbackDescription : String := "Projeto local carregado via ZIP"

/-- The description expression from `src/App.tsx`:
`readmeContent.slice(0, 300) + (readmeContent.length > 300 ? '...' : '') || fallback`.
The JS `||` takes the fallback exactly when the left operand is the empty
string. -/
def descriptionFrom (readmeContent : String) : String :=
  let d := strTake readmeContent 300 ++ (if strLen readmeContent > 300 then "..." else "")
  if d = "" then fallbackDescription else d

/-- Construction of the `LocalProject` literal in `processZipFile`. -/
def buildLocalProject (file : ZipFile) : LocalProject :=
  let filePaths := file.entries.map ZipEntry.path
  let collected := collectKeyFiles file.entries
  { name := replaceFirst file.name ".zip" ""
    description := descriptionFrom collected.2
    files := filePaths
    keyFiles := collected.1 }

/-- Error message set when the tier gate rejects the upload (`src/App.tsx`). -/
def gatedFeatureMessage : String :=
  "A análise de ZIP é um recurso Pro. Por favor, faça o upgrade da sua conta."

/-- Error message thrown for a non-`.zip` upload (`src/App.tsx`). -/
def nonZipMessage : String := "Por favor, envie um arquivo .zip"

/-- `processZipFile` from `src/App.tsx`: the tier gate runs first and returns
immediately; then the `.zip` extension check; then the archive is decoded, the
`LocalProject` built and the AI analysis triggered. The result pairs the
outcome with the ordered list of external effects performed. -/
def processZipFile (user : Option User) (file : ZipFile) :
    Except String LocalProject × List Effect :=
  match user with
  | none => (Except.error gatedFeatureMessage, [])
  | some u =>
    if u.tier ≠ UserTier.pro then (Except.error gatedFeatureMessage, [])
    else if strEndsWith file.name ".zip" = false then (Except.error nonZipMessage, [])
    else (Except.ok (buildLocalProject file), [Effect.decodeArchive, Effect.aiCall])

/-- Wrapping of a fetched repository record in `fetchRepoData`
(`src/App.tsx`): `const context = { type: 'github', data }`. -/
def fromRepository (data : GithubRepo) : AnalysisContext :=
  AnalysisContext.github data

/-! ## Analysis client prompt (`analyzeProject` in `src/services/gemini.ts`) -/

/-- The file-listing section of the local prompt context:
`project.files.slice(0, 100)`, later newline-joined. -/
def fileListingSection (project : LocalProject) : List String :=
  project.files.take 100

/-- The labeled block rendered for one key file:
```--- ${name} ---\n${content.slice(0, 2000)}\n```. -/
def keyFileBlock (name content : String) : String :=
  "--- " ++ name ++ " ---\n" ++ strTake content 2000 ++ "\n"

/-- The `promptContext` template string for a `local` context, assembled from
the bounded sections exactly as in `src/services/gemini.ts`. -/
def promptContextLocal (project : LocalProject) : String :=
  "\n      Project Name: " ++ project.name ++
  "\n      Description: " ++
    (if project.description = "" then "Analyzed from local zip file" else project.description) ++
  "\n      Source: Local Zip Upload\n      \n      File Structure (partial):\n      " ++
  String.intercalate "\n" (fileListingSection project) ++
  "\n      \n      Key File Contents:\n      " ++
  String.intercalate "\n" (project.keyFiles.map (fun p => keyFileBlock p.1 p.2)) ++
  "\n    "

/-- The `promptContext` template string for a `github` context. JS falsiness
of `repo.description || ...` treats both `null` and `""` as absent. -/
def promptContextGithub (repo : GithubRepo) : String :=
  "\n      Repo Name: " ++ repo.full_name ++
  "\n      Description: " ++
    (match repo.description with
     | none => "No description provided"
     | some d => if d = "" then "No description provided" else d) ++
  "\n      Language: " ++
    (match repo.language with
     | none => "Unknown"
     | some l => if l = "" then "Unknown" else l) ++
  "\n      Topics: " ++ String.intercalate ", " repo.topics ++
  "\n      Source: GitHub API Metadata\n    "

/-! ## JSON values and `JSON.parse` model -/

/-- A parsed JSON value (model of the dynamic value `JSON.parse` returns).
Numbers are modelled as integers; the claims only exercise objects and
strings. -/
inductive Json where
  | null
  | bool (b : Bool)
  | num (n : Int)
  | str (s : String)
  | arr (elems : List Json)
  | obj (fields : List (String × Json))
deriving Repr

/-- Opening brace character, by code point. -/
def openBrace : Char := Char.ofNat 123

/-- Closing brace character, by code point. -/
def closeBrace : Char := Char.ofNat 125

/-- Skip JSON whitespace. -/
def skipWs : List Char → List Char
  | [] => []
  | c :: cs => if c = ' ' ∨ c = '\n' ∨ c = '\t' ∨ c = '\r' then skipWs cs else c :: cs

/-- Read the characters of a string literal after the opening quote, handling
the basic escapes; returns the content and the rest after the closing quote. -/
def takeStringChars : List Char → Option (List Char × List Char)
  | [] => none
  | c :: cs =>
    if c = '"' then some ([], cs)
    else if c = '\\' then
      match cs with
      | [] => none
      | e :: cs2 =>
        match takeStringChars cs2 with
        | some (out, rest) =>
          let decoded := if e = 'n' then '\n' else if e = 't' then '\t' else e
          some (decoded :: out, rest)
        | none => none
    else
      match takeStringChars cs with
      | some (out, rest) => some (c :: out, rest)
      | none => none

/-- Take a maximal run of decimal digits. -/
def takeDigits : List Char → List Char × List Char
  | [] => ([], [])
  | c :: cs =>
    if c.isDigit then
      let r := takeDigits cs
      (c :: r.1, r.2)
    else ([], c :: cs)

/-- Decimal digits to a natural number. -/
def digitsToNat (ds : List Char) : Nat :=
  ds.foldl (fun acc c => acc * 10 + (c.toNat - 48)) 0

mutual

/-- Parse one JSON value (fuel-bounded recursive descent). -/
def parseValue : Nat → List Char → Option (Json × List Char)
  | 0, _ => none
  | Nat.succ fuel, input =>
    match skipWs input with
    | [] => none
    | c :: rest =>
      if c = '"' then
        (takeStringChars rest).map (fun r => (Json.str ⟨r.1⟩, r.2))
      else if c = openBrace then
        match skipWs rest with
        | [] => none
        | c2 :: rest2 =>
          if c2 = closeBrace then some (Json.obj [], rest2)
          else parseMembers fuel (c2 :: rest2) []
      else if c = '[' then
        match skipWs rest with
        | [] => none
        | c2 :: rest2 =>
          if c2 = ']' then some (Json.arr [], rest2)
          else parseElements fuel (c2 :: rest2) []
      else if c = 't' then
        if ['r', 'u', 'e'].isPrefixOf rest then some (Json.bool true, rest.drop 3) else none
      else if c = 'f' then
        if ['a', 'l', 's', 'e'].isPrefixOf rest then some (Json.bool false, rest.drop 4) else none
      else if c = 'n' then
        if ['u', 'l', 'l'].isPrefixOf rest then some (Json.null, rest.drop 3) else none
      else if c = '-' then
        match takeDigits rest with
        | ([], _) => none
        | (ds, rest2) => some (Json.num (-(digitsToNat ds : Int)), rest2)
      else if c.isDigit then
        match takeDigits (c :: rest) with
        | (ds, rest2) => some (Json.num (digitsToNat ds), rest2)
      else none

/-- Parse the members of a JSON object after its opening brace. -/
def parseMembers : Nat → List Char → List (String × Json) → Option (Json × List Char)
  | 0, _, _ => none
  | Nat.succ fuel, input, acc =>
    match skipWs input with
    | [] => none
    | c :: rest =>
      if c = '"' then
        match takeStringChars rest with
        | none => none
        | some (key, rest2) =>
          match skipWs rest2 with
          | ':' :: rest3 =>
            match parseValue fuel rest3 with
            | none => none
            | some (v, rest4) =>
              match skipWs rest4 with
              | [] => none
              | c2 :: rest5 =>
                if c2 = ',' then parseMembers fuel rest5 (acc ++ [(⟨key⟩, v)])
                else if c2 = closeBrace then some (Json.obj (acc ++ [(⟨key⟩, v)]), rest5)
                else none
          | _ => none
      else none

/-- Parse the elements of a JSON array after its opening bracket. -/
def parseElements : Nat → List Char → List Json → Option (Json × List Char)
  | 0, _, _ => none
  | Nat.succ fuel, input, acc =>
    match parseValue fuel input with
    | none => none
    | some (v, rest) =>
      match skipWs rest with
      | ',' :: rest2 => parseElements fuel rest2 (acc ++ [v])
      | ']' :: rest2 => some (Json.arr (acc ++ [v]), rest2)
      | _ => none

end

/-- Model of `JSON.parse`: parse a whole string, rejecting trailing content. -/
def jsonParse (s : String) : Option Json :=
  match parseValue (s.data.length + 1) s.data with
  | some (v, rest) => if skipWs rest = [] then some v else none
  | none => none

/-! ## Analysis client response handling (`src/services/gemini.ts`) -/

/-- The error message thrown when `JSON.parse` fails in `analyzeProject`. -/
def parseFailureMessage : String := "AI analysis failed to generate valid data."

/-- The JS coercion `response.text || '\x7b\x7d'`: an absent or empty response
text is replaced by the two-character empty-object literal. -/
def responseTextCoerced (text : Option String) : String :=
  match text with
  | none => "\x7b\x7d"
  | some s => if s = "" then "\x7b\x7d" else s

/-- The response handling of `analyzeProject`: coerce the text, `JSON.parse`
it, return whatever parsed on success (no field validation is performed), and
fail with the fixed parse-failure message otherwise. -/
def parseAIResponse (text : Option String) : Except String Json :=
  match jsonParse (responseTextCoerced text) with
  | some j => Except.ok j
  | none => Except.error parseFailureMessage

/-- The parsed value of a successful `analyzeProject` response, if any. -/
def parsedResult (text : Option String) : Option Json :=
  match parseAIResponse text with
  | Except.ok j => some j
  | Except.error _ => none

/-- Whether `parseAIResponse` failed on the given text. -/
def parseFailed (text : Option String) : Bool :=
  match parseAIResponse text with
  | Except.ok _ => false
  | Except.error _ => true

/-- The seven field names the response schema declares as required. -/
def requiredFields : List String :=
  ["summary", "keyFeatures", "targetAudience", "techStackRating",
   "suggestions", "projectType", "githubActionsWorkflow"]

/-- Whether a JSON value is an object carrying the named field. -/
def Json.hasField (j : Json) (key : String) : Bool :=
  match j with
  | .obj fields => fields.any (fun p => p.1 = key)
  | _ => false

/-- Whether a JSON value carries all seven required `AIAnalysis` fields. -/
def hasAllRequiredFields (j : Json) : Bool :=
  requiredFields.all (fun k => j.hasField k)

/-- Whether a JSON value is the empty object. -/
def Json.isEmptyObj : Json → Bool
  | .obj [] => true
  | _ => false

/-! ## Action-boundary error handling (`triggerAnalysis` in `src/App.tsx`) -/

/-- The two analysis failure kinds of the error taxonomy, each carrying the
underlying error message. -/
inductive AnalysisError where
  | requestFailed (message : String)
  | responseInvalid (message : String)
deriving DecidableEq, Repr

/-- The single fixed message `triggerAnalysis` shows for any analysis error. -/
def analysisFailureMessage : String :=
  "A análise de IA falhou. Verifique se a API_KEY está configurada corretamente no Netlify."

/-- The `catch` block of `triggerAnalysis`: the caught error is ignored and
the fixed message is shown. -/
def triggerAnalysisErrorMessage (_ : AnalysisError) : String :=
  analysisFailureMessage

deriving instance DecidableEq for Except

/-! ## Helper lemmas -/

/-- Two strings with equal character lists are equal. -/
theorem strExt {a b : String} (h : a.data = b.data) : a = b :=
  congrArg String.mk h

/-- The mixed-case allow-list never contains the lowercased README name. -/
theorem readme_not_in_allowlist : "readme.md" ∉ keyFilesToRead := by decide

/-- One collection step never changes the captured README content: the
README-capture branch compares the lowercased base name with `"readme.md"`,
which is not in the mixed-case allow-list guarding the branch. -/
theorem collectStep_snd (acc : List (String × String) × String) (e : ZipEntry) :
    (collectStep acc e).2 = acc.2 := by
  unfold collectStep
  simp only
  split
  · rename_i hcond
    have hne : baseNameOf e.path ≠ "readme.md" := by
      intro hEq
      have hmem := hcond.2.1
      rw [hEq] at hmem
      exact readme_not_in_allowlist hmem
    simp only [if_neg hne]
  · rfl

/-- The collection loop never captures README content. -/
theorem collect_foldl_snd (entries : List ZipEntry)
    (acc : List (String × String) × String) :
    (entries.foldl collectStep acc).2 = acc.2 := by
  induction entries generalizing acc with
  | nil => rfl
  | cons e es ih => rw [List.foldl_cons, ih, collectStep_snd]

/-- Every pair the collection loop adds comes from a non-directory entry whose
lowercased base name is in the allow-list, keyed by that entry's path. -/
theorem collect_foldl_mem (entries : List ZipEntry)
    (acc : List (String × String) × String) (p : String × String)
    (hp : p ∈ (entries.foldl collectStep acc).1) :
    p ∈ acc.1 ∨ ∃ e ∈ entries, e.path = p.1 ∧ e.content = p.2 ∧ e.dir = false ∧
      baseNameOf e.path ∈ keyFilesToRead := by
  induction entries generalizing acc with
  | nil => exact Or.inl hp
  | cons e es ih =>
    rw [List.foldl_cons] at hp
    rcases ih (collectStep acc e) hp with h | h
    · unfold collectStep at h
      simp only at h
      by_cases hcond : baseNameOf e.path ≠ "" ∧ baseNameOf e.path ∈ keyFilesToRead ∧
          e.dir = false
      · rw [if_pos hcond] at h
        rcases List.mem_append.mp h with h1 | h1
        · exact Or.inl h1
        · have hpe : p = (e.path, e.content) := List.mem_singleton.mp h1
          refine Or.inr ⟨e, List.mem_cons_self e es, ?_, ?_, hcond.2.2, hcond.2.1⟩
          · rw [hpe]
          · rw [hpe]
      · rw [if_neg hcond] at h
        exact Or.inl h
    · rcases h with ⟨e', he', hrest⟩
      exact Or.inr ⟨e', List.mem_cons_of_mem e he', hrest⟩

/-- The produced description is always the fallback placeholder, whatever the
archive holds, because the README content is never captured. -/
theorem buildLocalProject_description (file : ZipFile) :
    (buildLocalProject file).description = fallbackDescription := by
  show descriptionFrom (collectKeyFiles file.entries).2 = fallbackDescription
  rw [show (collectKeyFiles file.entries).2 = "" from
    collect_foldl_snd file.entries ([], "")]
  rfl

/-! ## Claim theorems -/

/-- Claim C1 (code finding): `analyzeProject` performs no required-field
validation. The backend response text consisting of a JSON object with only a
`summary` field parses successfully and is returned as-is, although it misses
six of the seven required `AIAnalysis` fields — `invoke` does not fail with
`AIResponseInvalid` as the claim requires. -/
theorem c1_missing_fields_returned_unvalidated :
    parseFailed (some "\x7b\"summary\": \"ok\"\x7d") = false ∧
    (parsedResult (some "\x7b\"summary\": \"ok\"\x7d")).map hasAllRequiredFields =
      some false ∧
    (parsedResult (some "\x7b\"summary\": \"ok\"\x7d")).map
      (fun j => j.hasField "summary") = some true := by
  refine ⟨?_, ?_, ?_⟩ <;> decide

/-- Claim C2 (code finding): an archive containing a non-directory `README.md`
entry with the 5-character content `"hello"` produces the fallback
description, not the README content: `processZipFile` lowercases the base name
to `readme.md` and tests it against the allow-list entry `README.md`, so the
README is never captured and the description source stays empty. -/
theorem c2_readme_description_not_captured :
    (processZipFile (some ⟨"u1", "user@mail.com", "user", UserTier.pro, none⟩)
        ⟨"proj.zip", [⟨"README.md", false, "hello"⟩]⟩).1 =
      Except.ok ⟨"proj", fallbackDescription, ["README.md"], []⟩ ∧
    strLen "hello" ≤ 300 ∧
    fallbackDescription ≠ "hello" := by
  refine ⟨?_, ?_, ?_⟩ <;> decide

/-- Claim C3 (code finding): the `catch` block of `triggerAnalysis` ignores
the caught error, so a transport failure reaching the AI backend and an
unparseable response produce the identical fixed user-visible message. -/
theorem c3_failure_kinds_share_message :
    triggerAnalysisErrorMessage (AnalysisError.requestFailed "Failed to fetch") =
      triggerAnalysisErrorMessage (AnalysisError.responseInvalid parseFailureMessage) ∧
    triggerAnalysisErrorMessage (AnalysisError.requestFailed "Failed to fetch") =
      analysisFailureMessage := ⟨rfl, rfl⟩

/-- Claim C8: `fromRepository` wraps the repository record verbatim under the
`github` tag, modifying no field. -/
theorem c8_fromRepository_verbatim (repo : GithubRepo) :
    (fromRepository repo).tag = "github" ∧
    (fromRepository repo).githubData = some repo :=
  ⟨rfl, rfl⟩

/-- Claim C10: an absent or empty backend response text is coerced to the
two-character empty-object literal, `JSON.parse` succeeds on it, and
`analyzeProject` returns the empty object — carrying none of the seven
required `AIAnalysis` fields — without failing. -/
theorem c10_empty_response_returns_empty_object :
    parseFailed none = false ∧
    parseFailed (some "") = false ∧
    responseTextCoerced none = "\x7b\x7d" ∧
    responseTextCoerced (some "") = "\x7b\x7d" ∧
    (parsedResult none).map Json.isEmptyObj = some true ∧
    (parsedResult (some "")).map Json.isEmptyObj = some true ∧
    (parsedResult none).map
      (fun j => requiredFields.all (fun k => !(j.hasField k))) = some true := by
  refine ⟨?_, ?_, ?_, ?_, ?_, ?_, ?_⟩ <;> decide

/-- Claim C4: the `keyFiles` mapping contains only pairs coming from
non-directory entries whose lowercased base name is in the fixed allow-list;
and the `notes.txt`-only archive yields empty `keyFiles` and the fallback
description. -/
theorem c4_keyFiles_allowlist_and_scenario :
    (∀ (entries : List ZipEntry) (p : String × String),
        p ∈ (collectKeyFiles entries).1 →
        ∃ e ∈ entries, e.path = p.1 ∧ e.content = p.2 ∧ e.dir = false ∧
          baseNameOf e.path ∈ keyFilesToRead) ∧
    (processZipFile (some ⟨"u2", "user@mail.com", "user", UserTier.pro, none⟩)
        ⟨"notes.zip", [⟨"notes.txt", false, "just notes"⟩]⟩).1 =
      Except.ok ⟨"notes", fallbackDescription, ["notes.txt"], []⟩ := by
  constructor
  · intro entries p hp
    rcases collect_foldl_mem entries ([], "") p hp with h | h
    · exact absurd h (List.not_mem_nil p)
    · exact h
  · decide

/-- Claim C4 witness: instantiated at a one-entry archive holding
`package.json`, whose pair the collection loop captures. -/
theorem c4_witness :
    (("package.json", "pkg") ∈
      (collectKeyFiles [⟨"package.json", false, "pkg"⟩]).1) ∧
    (∃ e ∈ [(⟨"package.json", false, "pkg"⟩ : ZipEntry)],
      e.path = ("package.json", "pkg").1 ∧ e.content = ("package.json", "pkg").2 ∧
      e.dir = false ∧ baseNameOf e.path ∈ keyFilesToRead) :=
  ⟨by decide,
   c4_keyFiles_allowlist_and_scenario.1 [⟨"package.json", false, "pkg"⟩]
     ("package.json", "pkg") (by decide)⟩

/-- Claim C5: for every local project, whenever it has more than 100 files the
rendered file-listing section holds exactly 100 paths; and — regardless of the
file count — each rendered key-file block embeds at most the first 2000
characters of the file's content (a prefix of it), in the fixed labeled
template. -/
theorem c5_prompt_bounds (project : LocalProject) :
    (project.files.length > 100 → (fileListingSection project).length = 100) ∧
    ∀ p ∈ project.keyFiles,
      strLen (strTake p.2 2000) ≤ 2000 ∧
      (strTake p.2 2000).data <+: p.2.data ∧
      keyFileBlock p.1 p.2 = "--- " ++ p.1 ++ " ---\n" ++ strTake p.2 2000 ++ "\n" := by
  constructor
  · intro h
    show (project.files.take 100).length = 100
    rw [List.length_take]
    omega
  · intro p _
    refine ⟨?_, ?_, rfl⟩
    · show (p.2.data.take 2000).length ≤ 2000
      rw [List.length_take]
      omega
    · exact List.take_prefix 2000 p.2.data

/-- Claim C5 witness: a project with 101 files and one key file, discharging
both the file-count hypothesis of the listing bound and the membership
hypothesis of the truncation bound. -/
theorem c5_witness :
    ((⟨"p", "", List.replicate 101 "file.txt", [("k", "body")]⟩ :
        LocalProject).files.length > 100) ∧
    ((fileListingSection
        ⟨"p", "", List.replicate 101 "file.txt", [("k", "body")]⟩).length = 100) ∧
    ((("k", "body") ∈ (⟨"p", "", List.replicate 101 "file.txt", [("k", "body")]⟩ :
        LocalProject).keyFiles)) ∧
    (strLen (strTake "body" 2000) ≤ 2000 ∧
      (strTake "body" 2000).data <+: ("body" : String).data ∧
      keyFileBlock "k" "body" = "--- " ++ "k" ++ " ---\n" ++ strTake "body" 2000 ++ "\n") :=
  ⟨by decide,
   (c5_prompt_bounds ⟨"p", "", List.replicate 101 "file.txt", [("k", "body")]⟩).1
     (by decide),
   by decide,
   (c5_prompt_bounds ⟨"p", "", List.replicate 101 "file.txt", [("k", "body")]⟩).2
     ("k", "body") (by decide)⟩

/-- Claim C6: when no user is logged in or the user's tier is not `pro`, the
tier gate makes `processZipFile` return the gated-feature error with an empty
effect trace: the archive is not decoded and no external service is
contacted. -/
theorem c6_gate_short_circuits (user : Option User) (file : ZipFile)
    (h : ∀ u, user = some u → u.tier ≠ UserTier.pro) :
    processZipFile user file = (Except.error gatedFeatureMessage, []) := by
  cases user with
  | none => rfl
  | some u =>
    show (if u.tier ≠ UserTier.pro then (Except.error gatedFeatureMessage, [])
      else if strEndsWith file.name ".zip" = false then (Except.error nonZipMessage, [])
      else (Except.ok (buildLocalProject file), [Effect.decodeArchive, Effect.aiCall])) =
      (Except.error gatedFeatureMessage, [])
    rw [if_pos (h u rfl)]

/-- Claim C6 witness: a free-tier user uploading a well-formed archive is
rejected with no effects performed. -/
theorem c6_witness :
    ((⟨"u3", "free@mail.com", "free", UserTier.free, none⟩ : User).tier ≠
      UserTier.pro) ∧
    processZipFile (some ⟨"u3", "free@mail.com", "free", UserTier.free, none⟩)
      ⟨"proj.zip", [⟨"package.json", false, "pkg"⟩]⟩ =
      (Except.error gatedFeatureMessage, []) :=
  ⟨by decide,
   c6_gate_short_circuits (some ⟨"u3", "free@mail.com", "free", UserTier.free, none⟩)
     ⟨"proj.zip", [⟨"package.json", false, "pkg"⟩]⟩
     (fun u hu => by cases hu; decide)⟩

/-- Claim C7 counterexample: for the uploaded archive named `a.zipb.zip`
(which ends in `.zip`), the produced name is `ab.zip` — the JS
`name.replace('.zip', '')` removes the FIRST occurrence of `.zip` — and not
the trailing-stripped base name `a.zipb` the claim requires. -/
theorem c7_counterexample :
    strEndsWith "a.zipb.zip" ".zip" = true ∧
    (processZipFile (some ⟨"u6", "pro@mail.com", "pro", UserTier.pro, none⟩)
        ⟨"a.zipb.zip", []⟩).1 =
      Except.ok ⟨"ab.zip", fallbackDescription, [], []⟩ ∧
    ("ab.zip" : String) ≠ strTake "a.zipb.zip" (strLen "a.zipb.zip" - 4) := by
  refine ⟨?_, ?_, ?_⟩ <;> decide

/-- Claim C7 as amended: for every entitled upload whose file name ends in
`.zip`, the produced `LocalProject` name equals the file name with its FIRST
occurrence of `.zip` removed — which coincides with stripping the trailing
`.zip` whenever the first occurrence sits at the very end — and `files` is the
full, unfiltered entry-path list. -/
theorem c7_amended_name_and_files (user : User) (file : ZipFile)
    (h1 : user.tier = UserTier.pro)
    (h2 : strEndsWith file.name ".zip" = true) :
    (processZipFile (some user) file).1 = Except.ok (buildLocalProject file) ∧
    (buildLocalProject file).name = replaceFirst file.name ".zip" "" ∧
    (buildLocalProject file).files = file.entries.map ZipEntry.path ∧
    (∀ i, firstOccur file.name.data (".zip" : String).data = some i →
      i + 4 = strLen file.name →
      (buildLocalProject file).name = strTake file.name i) := by
  refine ⟨?_, rfl, rfl, ?_⟩
  · show (if user.tier ≠ UserTier.pro then
        (Except.error gatedFeatureMessage, ([] : List Effect))
      else if strEndsWith file.name ".zip" = false then (Except.error nonZipMessage, [])
      else (Except.ok (buildLocalProject file),
        [Effect.decodeArchive, Effect.aiCall])).1 = Except.ok (buildLocalProject file)
    rw [if_neg (fun hc => hc h1), if_neg (by simp [h2])]
  · intro i hocc hlen
    show replaceFirst file.name ".zip" "" = strTake file.name i
    unfold replaceFirst
    rw [hocc]
    apply strExt
    show file.name.data.take i ++ ([] : List Char) ++
        file.name.data.drop (i + strLen ".zip") = file.name.data.take i
    have hlen4 : i + strLen ".zip" = file.name.data.length := hlen
    rw [hlen4, List.drop_length, List.append_nil, List.append_nil]

/-- Claim C7 witness: a pro-tier upload of `proj.zip` with one entry. -/
theorem c7_witness :
    ((⟨"u5", "pro@mail.com", "pro", UserTier.pro, none⟩ : User).tier =
      UserTier.pro) ∧
    (strEndsWith "proj.zip" ".zip" = true) ∧
    ((processZipFile (some ⟨"u5", "pro@mail.com", "pro", UserTier.pro, none⟩)
        ⟨"proj.zip", [⟨"src/app.py", false, "print(1)"⟩]⟩).1 =
      Except.ok (buildLocalProject ⟨"proj.zip", [⟨"src/app.py", false, "print(1)"⟩]⟩) ∧
     (buildLocalProject ⟨"proj.zip", [⟨"src/app.py", false, "print(1)"⟩]⟩).name =
       replaceFirst "proj.zip" ".zip" "" ∧
     (buildLocalProject ⟨"proj.zip", [⟨"src/app.py", false, "print(1)"⟩]⟩).files =
       [(⟨"src/app.py", false, "print(1)"⟩ : ZipEntry)].map ZipEntry.path ∧
     (∀ i, firstOccur ("proj.zip" : String).data (".zip" : String).data = some i →
        i + 4 = strLen "proj.zip" →
        (buildLocalProject ⟨"proj.zip", [⟨"src/app.py", false, "print(1)"⟩]⟩).name =
          strTake "proj.zip" i)) :=
  ⟨rfl, by decide,
   c7_amended_name_and_files ⟨"u5", "pro@mail.com", "pro", UserTier.pro, none⟩
     ⟨"proj.zip", [⟨"src/app.py", false, "print(1)"⟩]⟩ rfl (by decide)⟩

/-- Claim C9: every key of the `keyFiles` mapping of a successfully produced
`LocalProject` is a path also present in its `files` list. -/
theorem c9_keyFiles_domain_in_files (user : User) (file : ZipFile)
    (proj : LocalProject)
    (h : (processZipFile (some user) file).1 = Except.ok proj) :
    ∀ p ∈ proj.keyFiles, p.1 ∈ proj.files := by
  simp only [processZipFile] at h
  split at h
  · simp at h
  · split at h
    · simp at h
    · simp only [Except.ok.injEq] at h
      subst h
      intro p hp
      have hp2 : p ∈ (file.entries.foldl collectStep ([], "")).1 := hp
      rcases collect_foldl_mem file.entries ([], "") p hp2 with hnil | ⟨e, he, hpath, _⟩
      · exact absurd hnil (List.not_mem_nil p)
      · show p.1 ∈ file.entries.map ZipEntry.path
        exact List.mem_map.mpr ⟨e, he, hpath⟩

/-- Claim C9 witness: a pro-tier upload of an archive holding `go.mod`. -/
theorem c9_witness :
    ((processZipFile (some ⟨"u4", "pro@mail.com", "pro", UserTier.pro, none⟩)
        ⟨"a.zip", [⟨"go.mod", false, "module m"⟩]⟩).1 =
      Except.ok ⟨"a", fallbackDescription, ["go.mod"], [("go.mod", "module m")]⟩) ∧
    (∀ p ∈ (⟨"a", fallbackDescription, ["go.mod"], [("go.mod", "module m")]⟩ :
        LocalProject).keyFiles,
      p.1 ∈ (⟨"a", fallbackDescription, ["go.mod"], [("go.mod", "module m")]⟩ :
        LocalProject).files) :=
  ⟨by decide,
   c9_keyFiles_domain_in_files ⟨"u4", "pro@mail.com", "pro", UserTier.pro, none⟩
     ⟨"a.zip", [⟨"go.mod", false, "module m"⟩]⟩
     ⟨"a", fallbackDescription, ["go.mod"], [("go.mod", "module m")]⟩ (by decide)⟩

end GitLensAI
